import Mathlib

/-!
Verification of the proton-drive-sync sync engine core against its design
document. The definitions below are a shallow embedding of the TypeScript
source: the durable job queue (src/jobs.ts, src/db/schema.ts), the event
normalizer and one-shot sync trace (the sync command module), the remote
delete operation (the delete module) and the remote create operation (the
create module). Machine timestamps are modelled as rationals (millisecond
epoch values), the Math.random draw of the retry jitter as an explicit
rational parameter, and the asynchronous remote calls as pure response
functions carried by a client record, with a trace of the mutating calls.
-/

namespace ProtonDriveSync

/-- Job status enum from src/db/schema.ts (SyncJobStatus): the schema defines
exactly PENDING, SYNCED and BLOCKED. -/
inductive SyncJobStatus
  | PENDING
  | SYNCED
  | BLOCKED
deriving DecidableEq, Fintype

/-- Event type enum from src/db/schema.ts (SyncEventType): the schema defines
exactly CREATE, UPDATE and DELETE. -/
inductive SyncEventType
  | CREATE
  | UPDATE
  | DELETE
deriving DecidableEq, Fintype

/-- One row of the sync_jobs table (src/db/schema.ts). -/
structure SyncJob where
  id : Nat
  eventType : SyncEventType
  localPath : String
  remotePath : String
  status : SyncJobStatus
  retryAt : ℚ
  nRetries : Nat
  lastError : Option String
deriving DecidableEq

/-- The sync_jobs table together with the AUTOINCREMENT counter. -/
structure JobStore where
  jobs : List SyncJob
  nextId : Nat
deriving DecidableEq

/-- The empty store (fresh database; SQLite AUTOINCREMENT starts at 1). -/
def emptyStore : JobStore := { jobs := [], nextId := 1 }

/-- Parameters of enqueueJob in src/jobs.ts. -/
structure EnqueueParams where
  eventType : SyncEventType
  localPath : String
  remotePath : String

/-- enqueueJob from src/jobs.ts: no-op on dryRun, otherwise inserts a fresh
PENDING row with retryAt = now, nRetries = 0, lastError = null. There is no
lookup of existing rows for the same path. -/
def enqueueJob (params : EnqueueParams) (dryRun : Bool) (now : ℚ) (s : JobStore) : JobStore :=
  if dryRun then s
  else
    let newJob : SyncJob :=
      { id := s.nextId
        eventType := params.eventType
        localPath := params.localPath
        remotePath := params.remotePath
        status := SyncJobStatus.PENDING
        retryAt := now
        nRetries := 0
        lastError := none }
    { jobs := s.jobs ++ [newJob], nextId := s.nextId + 1 }

/-- The WHERE clause of getNextPendingJob: status = PENDING and retryAt <= now. -/
def isEligible (now : ℚ) (j : SyncJob) : Bool :=
  decide (j.status = SyncJobStatus.PENDING ∧ j.retryAt ≤ now)

/-- The ORDER BY retryAt ordering of getNextPendingJob, with ties broken by
rowid as the covering index (status, retry_at) yields them. -/
def jobLe (a b : SyncJob) : Prop :=
  a.retryAt < b.retryAt ∨ (a.retryAt = b.retryAt ∧ a.id ≤ b.id)

/-- Comparator step for the LIMIT 1 selection: keep b only when strictly
earlier in the (retryAt, id) order. -/
def betterJob (a b : SyncJob) : SyncJob :=
  if b.retryAt < a.retryAt ∨ (b.retryAt = a.retryAt ∧ b.id < a.id) then b else a

/-- Minimum of a row list in the (retryAt, id) order; none on the empty list. -/
def selectMin : List SyncJob → Option SyncJob
  | [] => none
  | j :: rest =>
    match selectMin rest with
    | none => some j
    | some k => some (betterJob j k)

/-- getNextPendingJob from src/jobs.ts: SELECT the PENDING row with
retryAt <= now, ORDER BY retryAt, LIMIT 1. It is a pure read: the function
returns the row and leaves the store untouched. -/
def getNextPendingJob (now : ℚ) (s : JobStore) : Option SyncJob :=
  selectMin (s.jobs.filter (isEligible now))

/-- markJobSynced from src/jobs.ts: set status = SYNCED, lastError = null on
the row with the given id; no-op on dryRun. -/
def markJobSynced (jobId : Nat) (dryRun : Bool) (s : JobStore) : JobStore :=
  if dryRun then s
  else
    { s with jobs := s.jobs.map (fun j =>
        if j.id = jobId then { j with status := SyncJobStatus.SYNCED, lastError := none } else j) }

/-- markJobBlocked from src/jobs.ts: set status = BLOCKED and store the error
on the row with the given id; no-op on dryRun. -/
def markJobBlocked (jobId : Nat) (error : String) (dryRun : Bool) (s : JobStore) : JobStore :=
  if dryRun then s
  else
    { s with jobs := s.jobs.map (fun j =>
        if j.id = jobId then { j with status := SyncJobStatus.BLOCKED, lastError := some error } else j) }

/-- MAX_RETRIES constant from src/jobs.ts. -/
def MAX_RETRIES : Nat := 10

/-- BASE_RETRY_DELAY_MS constant from src/jobs.ts (1 second). -/
def BASE_RETRY_DELAY_MS : ℚ := 1000

/-- MAX_RETRY_DELAY_MS constant from src/jobs.ts (5 minutes). -/
def MAX_RETRY_DELAY_MS : ℚ := 5 * 60 * 1000

/-- The baseDelay local of scheduleRetry:
min(BASE_RETRY_DELAY_MS * 2 ^ nRetries, MAX_RETRY_DELAY_MS). -/
def baseDelay (nRetries : Nat) : ℚ :=
  min (BASE_RETRY_DELAY_MS * 2 ^ nRetries) MAX_RETRY_DELAY_MS

/-- The total delay of scheduleRetry: baseDelay plus the jitter
Math.random() * baseDelay * 0.5, with the random draw given as rand. -/
def retryDelay (nRetries : Nat) (rand : ℚ) : ℚ :=
  baseDelay nRetries + rand * baseDelay nRetries * (1 / 2)

/-- scheduleRetry from src/jobs.ts: set nRetries to the passed value plus one,
retryAt to now plus the backoff delay, and store the error. The status column
is not touched, so the row stays PENDING. No-op on dryRun. -/
def scheduleRetry (jobId : Nat) (nRetries : Nat) (error : String) (dryRun : Bool)
    (now rand : ℚ) (s : JobStore) : JobStore :=
  if dryRun then s
  else
    { s with jobs := s.jobs.map (fun j =>
        if j.id = jobId then
          { j with
            nRetries := nRetries + 1
            retryAt := now + retryDelay nRetries rand
            lastError := some error }
        else j) }

/-- processNextJob from src/jobs.ts, with the remote dispatch of the try block
(deleteNode or createNode plus the success check) abstracted as exec. Returns
false when no eligible job exists; otherwise marks the selected job SYNCED on
success, and on failure marks it BLOCKED when its nRetries is at least
MAX_RETRIES, else schedules a retry; either way it returns true. -/
def processNextJob (exec : SyncJob → Except String Unit) (rand : ℚ) (dryRun : Bool)
    (now : ℚ) (s : JobStore) : Bool × JobStore :=
  match getNextPendingJob now s with
  | none => (false, s)
  | some job =>
    match exec job with
    | Except.ok _ => (true, markJobSynced job.id dryRun s)
    | Except.error msg =>
      if MAX_RETRIES ≤ job.nRetries then (true, markJobBlocked job.id msg dryRun s)
      else (true, scheduleRetry job.id job.nRetries msg dryRun now rand s)

/-- processAllPendingJobs from src/jobs.ts: loop processNextJob until it
returns false, counting iterations. The source loop is unbounded; the fuel
argument bounds the recursion, and the theorems below supply enough fuel for
the loop to reach its exit condition. rand gives the jitter draw of each
iteration. -/
def processAllPendingJobs (exec : SyncJob → Except String Unit) (rand : Nat → ℚ)
    (dryRun : Bool) (now : ℚ) : Nat → Nat → JobStore → Nat × JobStore
  | 0, count, s => (count, s)
  | fuel + 1, count, s =>
    match processNextJob exec (rand count) dryRun now s with
    | (false, s2) => (count, s2)
    | (true, s2) => processAllPendingJobs exec rand dryRun now fuel (count + 1) s2

/-- Number of PENDING rows in the store. -/
def pendingCount (s : JobStore) : Nat :=
  (s.jobs.filter (fun j => decide (j.status = SyncJobStatus.PENDING))).length

/-- Number of PENDING rows for a given local path. -/
def pendingCountForPath (s : JobStore) (p : String) : Nat :=
  (s.jobs.filter (fun j => decide (j.status = SyncJobStatus.PENDING ∧ j.localPath = p))).length

/-- Number of rows eligible for selection (PENDING with retryAt <= now). -/
def eligibleCount (now : ℚ) (s : JobStore) : Nat :=
  (s.jobs.filter (isEligible now)).length

/-- Store states reachable from the empty store by enqueue and executor
operations (processNextJob with any dispatch outcome, jitter draw, dry-run
flag and clock reading). -/
inductive Reachable : JobStore → Prop
  | empty : Reachable emptyStore
  | enqueue (params : EnqueueParams) (dryRun : Bool) (now : ℚ) (s : JobStore) :
      Reachable s → Reachable (enqueueJob params dryRun now s)
  | process (exec : SyncJob → Except String Unit) (rand : ℚ) (dryRun : Bool) (now : ℚ)
      (s : JobStore) : Reachable s → Reachable (processNextJob exec rand dryRun now s).2

/-- Split of a character list at every occurrence of the separator, the
semantics of the JavaScript split with a one-character separator. -/
def splitOnChar (sep : Char) : List Char → List (List Char)
  | [] => [[]]
  | c :: rest =>
    let r := splitOnChar sep rest
    if c = sep then [] :: r
    else
      match r with
      | [] => [[c]]
      | h :: t => (c :: h) :: t

/-- Slash-split of a string into its components. -/
def splitPath (p : String) : List String :=
  (splitOnChar (Char.ofNat 47) p.data).map (fun cs => String.mk cs)

/-- Join of components with slashes, inverse of splitPath on its image. -/
def joinSlash : List String → String
  | [] => ""
  | [s] => s
  | s :: rest => s ++ "/" ++ joinSlash rest

/-- Boolean prefix test on character lists. -/
def isPrefixL : List Char → List Char → Bool
  | [], _ => true
  | _ :: _, [] => false
  | a :: as, b :: bs => decide (a = b) && isPrefixL as bs

/-- JavaScript startsWith on the underlying characters. -/
def startsWithS (p pre : String) : Bool := isPrefixL pre.data p.data

/-- JavaScript endsWith on the underlying characters. -/
def endsWithS (p suf : String) : Bool := isPrefixL suf.data.reverse p.data.reverse

/-- Drop of the first n characters (String.prototype.slice from n). -/
def dropS (p : String) (n : Nat) : String := String.mk (p.data.drop n)

/-- Drop of the last n characters (String.prototype.slice to length - n). -/
def dropRightS (p : String) (n : Nat) : String := String.mk (p.data.take (p.data.length - n))

/-- POSIX basename as provided by the path module for the slash-delimited
paths this program builds: the last nonempty slash-separated component, with
the whole string returned when no such component exists. -/
def basenameP (p : String) : String :=
  ((((splitPath p).filter (fun s => s ≠ "")).getLast?).getD p)

/-- POSIX dirname as provided by the path module for the slash-delimited
paths this program builds: everything before the last slash, with a dot for
slash-free inputs. -/
def dirnameP (p : String) : String :=
  let comps := splitPath p
  if comps.length ≤ 1 then "."
  else
    let d := joinSlash comps.dropLast
    if d = "" then "/" else d

/-- Result of parsePath (identical helper in the delete and create modules). -/
structure ParsedPath where
  parentParts : List String
  name : String
deriving DecidableEq

/-- parsePath from the delete and create modules: strip a leading my_files/
or ./my_files/ prefix, strip a trailing slash, split into the parent folder
components and the final name. -/
def parsePath (localPath : String) : ParsedPath :=
  let rel1 :=
    if startsWithS localPath ("my_files/") then dropS localPath 9
    else if startsWithS localPath ("./my_files/") then dropS localPath 11
    else localPath
  let rel := if endsWithS rel1 ("/") then dropRightS rel1 1 else rel1
  let name := basenameP rel
  let dirPath := dirnameP rel
  if dirPath = "." ∨ dirPath = "" then { parentParts := [], name := name }
  else { parentParts := (splitPath dirPath).filter (fun part => part.length > 0), name := name }

/-- Watchman type field: f for a file, d for a directory. -/
inductive FileType
  | f
  | d
deriving DecidableEq, Fintype

/-- FileChange record of the sync command module. The existsB field models
the exists flag of the source record (false when the path was removed); the
record carries no inode field. -/
structure FileChange where
  name : String
  size : Nat
  mtimeMs : ℚ
  existsB : Bool
  type : FileType
  watchRoot : String
  clock : Option String
deriving DecidableEq

/-- Event-type derivation inside processChanges of the sync command module:
a record with exists = false becomes DELETE, an existing directory CREATE,
and an existing file UPDATE (create and modify are both UPDATE). Each record
is mapped on its own; no pairing across records takes place. -/
def deriveEventType (change : FileChange) : SyncEventType :=
  if change.existsB = false then SyncEventType.DELETE
  else if change.type = FileType.d then SyncEventType.CREATE
  else SyncEventType.UPDATE

/-- Local path built by processChanges: watchRoot/relative-name. -/
def localPathOf (c : FileChange) : String := c.watchRoot ++ "/" ++ c.name

/-- Remote path built by processChanges: remoteRoot/basename(watchRoot)/name,
with the remoteRoot prefix omitted when it is the empty string. -/
def remotePathOf (remoteRoot : String) (c : FileChange) : String :=
  let dirName := basenameP c.watchRoot
  if remoteRoot ≠ "" then remoteRoot ++ "/" ++ dirName ++ "/" ++ c.name
  else dirName ++ "/" ++ c.name

/-- The enqueue parameters processChanges passes for one buffered change. -/
def enqueueParamsOf (remoteRoot : String) (c : FileChange) : EnqueueParams :=
  { eventType := deriveEventType c
    localPath := localPathOf c
    remotePath := remotePathOf remoteRoot c }

/-- Store effect of the enqueue loop of processChanges: one enqueueJob call
per buffered change, in buffer order. -/
def processChangesStore (remoteRoot : String) (dryRun : Bool) (now : ℚ)
    (changes : List FileChange) (s : JobStore) : JobStore :=
  changes.foldl (fun st c => enqueueJob (enqueueParamsOf remoteRoot c) dryRun now st) s

/-- Observable actions of the one-shot sync flow, used to state ordering
properties between the clock write and the job enqueues. -/
inductive SyncAction
  | watchProject (dir : String)
  | queryW (dir : String)
  | saveClock (dir clock : String)
  | enqueueA (eventType : SyncEventType) (localPath remotePath : String)
deriving DecidableEq

/-- Raw watchman file record of a query response (no watch root attached). -/
structure RawFileChange where
  name : String
  size : Nat
  mtimeMs : ℚ
  existsB : Bool
  type : FileType
deriving DecidableEq

/-- Watchman query response: the new clock and the changed files. -/
structure WatchmanQueryResponse where
  clock : String
  files : List RawFileChange
deriving DecidableEq

/-- Attach the watch root to a raw record, as the one-shot loop does. -/
def toFileChange (watchRoot : String) (f : RawFileChange) : FileChange :=
  { name := f.name
    size := f.size
    mtimeMs := f.mtimeMs
    existsB := f.existsB
    type := f.type
    watchRoot := watchRoot
    clock := none }

/-- JavaScript Map.set semantics of the pendingChanges buffer keyed by name:
an existing key keeps its position and takes the new value, a new key is
appended. -/
def mapSet (buf : List FileChange) (c : FileChange) : List FileChange :=
  if buf.any (fun b => b.name == c.name) then
    buf.map (fun b => if b.name = c.name then c else b)
  else buf ++ [c]

/-- queueChange applied to every file of a batch (schedule = false). -/
def queueChanges (watchRoot : String) (files : List RawFileChange)
    (buf : List FileChange) : List FileChange :=
  files.foldl (fun b f => mapSet b (toFileChange watchRoot f)) buf

/-- Enqueue actions emitted by processChanges for a buffer snapshot. -/
def processChangesEnqueues (remoteRoot : String) (changes : List FileChange) : List SyncAction :=
  changes.map (fun c =>
    SyncAction.enqueueA (deriveEventType c) (localPathOf c) (remotePathOf remoteRoot c))

/-- Action trace of runOneShotSync in the sync command module for a single
configured directory: register the watch, issue the query, save the returned
clock when it is non-empty, buffer the files, and only then run
processChanges, which enqueues the buffered changes (nothing is emitted when
the buffer is empty). The saved clock of the previous run only changes the
query content, not the action order, so it is not a parameter here. -/
def runOneShotSyncTrace (remoteRoot dir : String) (resp : WatchmanQueryResponse) :
    List SyncAction :=
  let trace1 := [SyncAction.watchProject dir, SyncAction.queryW dir] ++
    (if resp.clock ≠ "" then [SyncAction.saveClock dir resp.clock] else [])
  let buffer := queueChanges dir resp.files []
  if buffer = [] then trace1
  else trace1 ++ processChangesEnqueues remoteRoot buffer

/-- Child node payload of the drive client iterator. -/
structure NodeData where
  name : String
  uid : String
  type : String
deriving DecidableEq

/-- One element of iterateFolderChildren: ok flag plus optional payload. -/
structure NodeResult where
  ok : Bool
  value : Option NodeData
deriving DecidableEq

/-- Result of getMyFilesRootFolder. -/
structure RootFolderResult where
  ok : Bool
  uid : Option String
  error : Option String
deriving DecidableEq

/-- One element of the trashNodes / deleteNodes result iterator. -/
structure OpResult where
  ok : Bool
  error : Option String
deriving DecidableEq

/-- Result of createFolder. -/
structure CreateFolderResult where
  ok : Bool
  uid : Option String
  error : Option String
deriving DecidableEq

/-- The drive client as a record of response functions: the remote state is
frozen during one operation, which matches the fact that the source consumes
each response exactly once per call. Uploads are collapsed to their final
completion outcome (node uid or failure message). -/
structure ProtonDriveClient where
  rootResult : RootFolderResult
  childrenOf : String → List NodeResult
  trashResult : String → List OpResult
  deleteResult : String → List OpResult
  createFolderResult : String → String → CreateFolderResult
  uploadNewResult : String → String → Except String String
  uploadRevisionResult : String → Except String String

/-- Drive-client calls recorded by the embedding (the lookup and mutation
calls the claims reason about; pure child iterations are not traced). -/
inductive ClientCall
  | getRootC
  | trashC (uids : List String)
  | deleteC (uids : List String)
  | createFolderC (parentUid name : String)
  | uploaderC (parentUid name : String)
  | revisionUploaderC (uid : String)
deriving DecidableEq

/-- Node found by findNodeByName in the delete module. -/
structure FoundNode where
  uid : String
  type : String
deriving DecidableEq

/-- findNodeByName from the delete module: first ok child whose name matches
(the source keeps iterating afterwards purely to warm the client cache). -/
def findNodeByName : List NodeResult → String → Option FoundNode
  | [], _ => none
  | n :: rest, name =>
    match n.value with
    | some v =>
      if n.ok = true ∧ v.name = name then some { uid := v.uid, type := v.type }
      else findNodeByName rest name
    | none => findNodeByName rest name

/-- traverseRemotePath from the delete module: walk the parent components,
failing when a component is missing or is not a folder. -/
def traverseRemotePath (client : ProtonDriveClient) : String → List String → Option String
  | currentUid, [] => some currentUid
  | currentUid, folderName :: rest =>
    match findNodeByName (client.childrenOf currentUid) folderName with
    | none => none
    | some node =>
      if node.type ≠ "folder" then none else traverseRemotePath client node.uid rest

/-- Result record of deleteNode. -/
structure DeleteOperationResult where
  success : Bool
  existed : Bool
  nodeUid : Option String
  nodeType : Option String
  error : Option String
deriving DecidableEq

/-- First failing element of a trashNodes / deleteNodes result iterator (the
source throws on the first not-ok element). -/
def firstFailure : List OpResult → Option String
  | [] => none
  | r :: rest => if r.ok = false then some ((r.error).getD "") else firstFailure rest

/-- deleteNode from the delete module, paired with the trace of traced client
calls: resolve the parent path, look up the target, and trash (or with
permanent = true, delete) it; a missing parent component or a missing target
returns success with existed = false and issues no trash or delete call. -/
def deleteNode (client : ProtonDriveClient) (remotePath : String) (permanent : Bool) :
    DeleteOperationResult × List ClientCall :=
  let pp := parsePath remotePath
  if client.rootResult.ok = false then
    ( { success := false
        existed := false
        nodeUid := none
        nodeType := none
        error := some ("Failed to get root folder: " ++ ((client.rootResult.error).getD "")) },
      [ClientCall.getRootC] )
  else
    let rootFolderUid := (client.rootResult.uid).getD ""
    let targetFolderOpt :=
      if pp.parentParts.length > 0 then traverseRemotePath client rootFolderUid pp.parentParts
      else some rootFolderUid
    match targetFolderOpt with
    | none =>
      ( { success := true, existed := false, nodeUid := none, nodeType := none, error := none },
        [ClientCall.getRootC] )
    | some targetFolderUid =>
      match findNodeByName (client.childrenOf targetFolderUid) pp.name with
      | none =>
        ( { success := true, existed := false, nodeUid := none, nodeType := none, error := none },
          [ClientCall.getRootC] )
      | some targetNode =>
        if permanent then
          match firstFailure (client.deleteResult targetNode.uid) with
          | some e =>
            ( { success := false
                existed := true
                nodeUid := some targetNode.uid
                nodeType := some targetNode.type
                error := some ("Failed to delete: " ++ e) },
              [ClientCall.getRootC, ClientCall.deleteC [targetNode.uid]] )
          | none =>
            ( { success := true
                existed := true
                nodeUid := some targetNode.uid
                nodeType := some targetNode.type
                error := none },
              [ClientCall.getRootC, ClientCall.deleteC [targetNode.uid]] )
        else
          match firstFailure (client.trashResult targetNode.uid) with
          | some e =>
            ( { success := false
                existed := true
                nodeUid := some targetNode.uid
                nodeType := some targetNode.type
                error := some ("Failed to trash: " ++ e) },
              [ClientCall.getRootC, ClientCall.trashC [targetNode.uid]] )
          | none =>
            ( { success := true
                existed := true
                nodeUid := some targetNode.uid
                nodeType := some targetNode.type
                error := none },
              [ClientCall.getRootC, ClientCall.trashC [targetNode.uid]] )

/-- The DELETE dispatch of processNextJob in src/jobs.ts: call deleteNode and
throw its error when it did not succeed. Non-DELETE events dispatch to the
create module, abstracted here as the other argument. -/
def dispatchJob (client : ProtonDriveClient) (other : SyncJob → Except String Unit)
    (job : SyncJob) : Except String Unit :=
  match job.eventType with
  | SyncEventType.DELETE =>
    let result := (deleteNode client job.remotePath false).1
    if result.success = false then Except.error ((result.error).getD "") else Except.ok ()
  | _ => other job

/-- findFileByName from the create module: first ok child of type file with
the given name. -/
def findFileByName : List NodeResult → String → Option String
  | [], _ => none
  | n :: rest, fileName =>
    match n.value with
    | some v =>
      if n.ok = true ∧ v.name = fileName ∧ v.type = "file" then some v.uid
      else findFileByName rest fileName
    | none => findFileByName rest fileName

/-- findFolderByName from the create module: first ok child of type folder
with the given name. -/
def findFolderByName : List NodeResult → String → Option String
  | [], _ => none
  | n :: rest, folderName =>
    match n.value with
    | some v =>
      if n.ok = true ∧ v.type = "folder" ∧ v.name = folderName then some v.uid
      else findFolderByName rest folderName
    | none => findFolderByName rest folderName

/-- ensureRemotePath from the create module: search each component until one
is missing, then create it and every later component (needToCreate mode). A
createFolder failure raises, modelled as the error side of the Except. -/
def ensureRemotePath (client : ProtonDriveClient) :
    String → Bool → List String → Except String String × List ClientCall
  | currentUid, _, [] => (Except.ok currentUid, [])
  | currentUid, needToCreate, folderName :: rest =>
    if needToCreate then
      let r := client.createFolderResult currentUid folderName
      if r.ok then
        let step := ensureRemotePath client ((r.uid).getD "") true rest
        (step.1, ClientCall.createFolderC currentUid folderName :: step.2)
      else
        (Except.error ("Failed to create folder \"" ++ folderName ++ "\": " ++ ((r.error).getD "")),
         [ClientCall.createFolderC currentUid folderName])
    else
      match findFolderByName (client.childrenOf currentUid) folderName with
      | some existingFolderUid => ensureRemotePath client existingFolderUid false rest
      | none =>
        let r := client.createFolderResult currentUid folderName
        if r.ok then
          let step := ensureRemotePath client ((r.uid).getD "") true rest
          (step.1, ClientCall.createFolderC currentUid folderName :: step.2)
        else
          (Except.error ("Failed to create folder \"" ++ folderName ++ "\": " ++ ((r.error).getD "")),
           [ClientCall.createFolderC currentUid folderName])

/-- createDirectory from the create module: reuse an existing folder of that
name, otherwise create it; a createFolder failure raises (caught by create). -/
def createDirectory (client : ProtonDriveClient) (targetFolderUid dirName : String) :
    Except String String × List ClientCall :=
  match findFolderByName (client.childrenOf targetFolderUid) dirName with
  | some existingFolderUid => (Except.ok existingFolderUid, [])
  | none =>
    let r := client.createFolderResult targetFolderUid dirName
    if r.ok then (Except.ok ((r.uid).getD ""), [ClientCall.createFolderC targetFolderUid dirName])
    else
      (Except.error ("Failed to create directory \"" ++ dirName ++ "\": " ++ ((r.error).getD "")),
       [ClientCall.createFolderC targetFolderUid dirName])

/-- uploadFile from the create module, collapsed to the completion outcome: a
file of that name gets a new revision, otherwise a new file node is created.
The byte stream and progress reporting carry no information the claims need. -/
def uploadFile (client : ProtonDriveClient) (targetFolderUid : String)
    (_localFilePath fileName : String) : Except String String × List ClientCall :=
  match findFileByName (client.childrenOf targetFolderUid) fileName with
  | some existingFileUid =>
    (client.uploadRevisionResult existingFileUid, [ClientCall.revisionUploaderC existingFileUid])
  | none =>
    (client.uploadNewResult targetFolderUid fileName,
     [ClientCall.uploaderC targetFolderUid fileName])

/-- Local filesystem stat result (statSync): kind and metadata. -/
structure LocalStat where
  isDirectory : Bool
  size : Nat
  mtimeMs : ℚ
deriving DecidableEq

/-- Local filesystem as a stat oracle; statSync throwing is the none case. -/
structure LocalFS where
  stat : String → Option LocalStat

/-- Result record of create in the create module. -/
structure CreateResult where
  success : Bool
  nodeUid : Option String
  error : Option String
  isDirectory : Bool
deriving DecidableEq

/-- The part of create after the local stat check: root lookup, parent-path
ensure (whose failure raises out of create, hence the Except on the result),
then directory creation or file upload inside the try block (whose failures
are caught and returned as success = false). -/
def createRemainder (client : ProtonDriveClient) (localPath : String) (isDirectory : Bool) :
    Except String CreateResult × List ClientCall :=
  let pp := parsePath localPath
  if client.rootResult.ok = false then
    ( Except.ok
        { success := false
          nodeUid := none
          error := some ("Failed to get root folder: " ++ ((client.rootResult.error).getD ""))
          isDirectory := isDirectory },
      [ClientCall.getRootC] )
  else
    let rootFolderUid := (client.rootResult.uid).getD ""
    let ensured :=
      if pp.parentParts.length > 0 then ensureRemotePath client rootFolderUid false pp.parentParts
      else (Except.ok rootFolderUid, [])
    match ensured.1 with
    | Except.error e => (Except.error e, ClientCall.getRootC :: ensured.2)
    | Except.ok targetFolderUid =>
      let step :=
        if isDirectory then createDirectory client targetFolderUid pp.name
        else uploadFile client targetFolderUid localPath pp.name
      match step.1 with
      | Except.ok nodeUid =>
        ( Except.ok
            { success := true, nodeUid := some nodeUid, error := none, isDirectory := isDirectory },
          ClientCall.getRootC :: (ensured.2 ++ step.2) )
      | Except.error e =>
        ( Except.ok
            { success := false, nodeUid := none, error := some e, isDirectory := isDirectory },
          ClientCall.getRootC :: (ensured.2 ++ step.2) )

/-- create from the create module: stat the local path first; when the stat
fails and the path has no trailing slash, return the Path-not-found failure
before any drive-client call; a trailing slash makes it a directory creation
for a path that does not exist locally. -/
def create (fs : LocalFS) (client : ProtonDriveClient) (localPath : String) :
    Except String CreateResult × List ClientCall :=
  match fs.stat localPath with
  | some pathStat => createRemainder client localPath pathStat.isDirectory
  | none =>
    if endsWithS localPath ("/") then createRemainder client localPath true
    else
      ( Except.ok
          { success := false
            nodeUid := none
            error := some ("Path not found: " ++ localPath ++
              ". For creating a new directory, add a trailing slash.")
            isDirectory := false },
        [] )

theorem jobLe_refl (a : SyncJob) : jobLe a a := Or.inr ⟨rfl, le_refl _⟩

theorem jobLe_trans {a b c : SyncJob} (h1 : jobLe a b) (h2 : jobLe b c) : jobLe a c := by
  rcases h1 with h1 | ⟨e1, i1⟩
  · rcases h2 with h2 | ⟨e2, i2⟩
    · exact Or.inl (lt_trans h1 h2)
    · exact Or.inl (e2 ▸ h1)
  · rcases h2 with h2 | ⟨e2, i2⟩
    · exact Or.inl (e1 ▸ h2)
    · exact Or.inr ⟨e1.trans e2, le_trans i1 i2⟩

theorem betterJob_eq_or (a b : SyncJob) : betterJob a b = a ∨ betterJob a b = b := by
  unfold betterJob
  split
  · exact Or.inr rfl
  · exact Or.inl rfl

theorem betterJob_le_left (a b : SyncJob) : jobLe (betterJob a b) a := by
  unfold betterJob
  split
  · rename_i h
    rcases h with h | ⟨e, i⟩
    · exact Or.inl h
    · exact Or.inr ⟨e, le_of_lt i⟩
  · exact jobLe_refl a

theorem betterJob_le_right (a b : SyncJob) : jobLe (betterJob a b) b := by
  unfold betterJob
  split
  · exact jobLe_refl b
  · rename_i h
    push_neg at h
    obtain ⟨h1, h2⟩ := h
    rcases lt_or_eq_of_le h1 with hlt | heq
    · exact Or.inl hlt
    · exact Or.inr ⟨heq, h2 heq.symm⟩

theorem selectMin_mem : ∀ {l : List SyncJob} {j : SyncJob}, selectMin l = some j → j ∈ l := by
  intro l
  induction l with
  | nil => intro j h; simp [selectMin] at h
  | cons a rest ih =>
    intro j h
    simp only [selectMin] at h
    cases hr : selectMin rest with
    | none =>
      rw [hr] at h
      simp only [Option.some.injEq] at h
      subst h
      exact List.mem_cons_self a rest
    | some k =>
      rw [hr] at h
      simp only [Option.some.injEq] at h
      subst h
      rcases betterJob_eq_or a k with hb | hb
      · rw [hb]; exact List.mem_cons_self a rest
      · rw [hb]; exact List.mem_cons_of_mem a (ih hr)

theorem selectMin_eq_none {l : List SyncJob} : selectMin l = none ↔ l = [] := by
  cases l with
  | nil => simp [selectMin]
  | cons a rest =>
    simp only [selectMin]
    cases selectMin rest <;> simp

theorem selectMin_le : ∀ (l : List SyncJob) (j : SyncJob), selectMin l = some j →
    ∀ k ∈ l, jobLe j k := by
  intro l
  induction l with
  | nil => intro j h; simp [selectMin] at h
  | cons a rest ih =>
    intro j h k hk
    simp only [selectMin] at h
    cases hr : selectMin rest with
    | none =>
      rw [hr] at h
      simp only [Option.some.injEq] at h
      subst h
      have hrest : rest = [] := selectMin_eq_none.mp hr
      subst hrest
      rcases List.mem_cons.mp hk with hk | hk
      · subst hk; exact jobLe_refl k
      · simp at hk
    | some m =>
      rw [hr] at h
      simp only [Option.some.injEq] at h
      subst h
      rcases List.mem_cons.mp hk with hk | hk
      · subst hk; exact betterJob_le_left k m
      · exact jobLe_trans (betterJob_le_right a m) (ih m hr k hk)

theorem getNextPendingJob_mem {now : ℚ} {s : JobStore} {j : SyncJob}
    (h : getNextPendingJob now s = some j) :
    j ∈ s.jobs ∧ j.status = SyncJobStatus.PENDING ∧ j.retryAt ≤ now := by
  have hm := selectMin_mem h
  rw [List.mem_filter] at hm
  have he : j.status = SyncJobStatus.PENDING ∧ j.retryAt ≤ now := by
    have h2 := hm.2
    simpa [isEligible] using h2
  exact ⟨hm.1, he.1, he.2⟩

theorem getNextPendingJob_min {now : ℚ} {s : JobStore} {j : SyncJob}
    (h : getNextPendingJob now s = some j) :
    ∀ k ∈ s.jobs, k.status = SyncJobStatus.PENDING → k.retryAt ≤ now → jobLe j k := by
  intro k hk hst hra
  refine selectMin_le _ _ h k ?_
  rw [List.mem_filter]
  exact ⟨hk, by simp [isEligible, hst, hra]⟩

theorem getNextPendingJob_eq_none {now : ℚ} {s : JobStore} :
    getNextPendingJob now s = none ↔
      ∀ j ∈ s.jobs, ¬(j.status = SyncJobStatus.PENDING ∧ j.retryAt ≤ now) := by
  unfold getNextPendingJob
  rw [selectMin_eq_none, List.filter_eq_nil_iff]
  constructor <;> intro h j hj
  · have h2 := h j hj
    simpa [isEligible] using h2
  · have h2 := h j hj
    simpa [isEligible] using h2

/-- Enqueue parameters used by the duplicate-enqueue counterexample. -/
def dupParams : EnqueueParams :=
  { eventType := SyncEventType.UPDATE, localPath := "/w/a.txt", remotePath := "w/a.txt" }

/-- C1: the claim that at most one PENDING row per local_path can exist and
that enqueueing the same (local_path, UPDATE) twice yields exactly one PENDING
row is false on the code: enqueueJob does no supersedure, and two enqueues of
the same parameters from the empty store leave two PENDING rows for the path. -/
theorem C1_counterexample :
    pendingCountForPath (enqueueJob dupParams false 0 (enqueueJob dupParams false 0 emptyStore))
      ("/w/a.txt") = 2 ∧
    ¬ pendingCountForPath (enqueueJob dupParams false 0 (enqueueJob dupParams false 0 emptyStore))
      ("/w/a.txt") = 1 := by
  decide

/-- C1 (amended): enqueueJob never coalesces: with dryRun = false it appends
exactly one new PENDING row for its local path, leaving every existing row in
place, so n enqueues for one path give n PENDING rows rather than one. -/
theorem C1_amended (params : EnqueueParams) (now : ℚ) (s : JobStore) :
    pendingCountForPath (enqueueJob params false now s) params.localPath
      = pendingCountForPath s params.localPath + 1 ∧
    (enqueueJob params false now s).jobs.length = s.jobs.length + 1 := by
  unfold enqueueJob pendingCountForPath
  simp [List.filter_append]

/-- One eligible PENDING row, used by the selection examples. -/
def selJob : SyncJob :=
  { id := 1
    eventType := SyncEventType.UPDATE
    localPath := "/w/a.txt"
    remotePath := "w/a.txt"
    status := SyncJobStatus.PENDING
    retryAt := 0
    nRetries := 0
    lastError := none }

/-- A one-row store holding selJob. -/
def selStore : JobStore := { jobs := [selJob], nextId := 2 }

/-- C2: the claim that getNextPendingJob flips the selected row to a
PROCESSING status in the same transaction is false on the code: selection is
a pure SELECT, the returned row is still PENDING, and the status enum of the
schema has no PROCESSING member at all (only PENDING, SYNCED, BLOCKED). -/
theorem C2_counterexample :
    (getNextPendingJob 0 selStore).map SyncJob.status = some SyncJobStatus.PENDING ∧
    (∀ st : SyncJobStatus,
      st = SyncJobStatus.PENDING ∨ st = SyncJobStatus.SYNCED ∨ st = SyncJobStatus.BLOCKED) := by
  decide

/-- C2 (amended): getNextPendingJob only reads: it returns a row of the store
that is PENDING with retryAt at most now and minimal in the (retryAt, id)
order among such rows, and it updates nothing — no transient claim marker
exists, the row stays PENDING until markJobSynced, markJobBlocked or
scheduleRetry touches it. -/
theorem C2_amended (now : ℚ) (s : JobStore) (j : SyncJob)
    (h : getNextPendingJob now s = some j) :
    j ∈ s.jobs ∧ j.status = SyncJobStatus.PENDING ∧ j.retryAt ≤ now ∧
    (∀ k ∈ s.jobs, k.status = SyncJobStatus.PENDING → k.retryAt ≤ now → jobLe j k) := by
  obtain ⟨hm, hst, hra⟩ := getNextPendingJob_mem h
  exact ⟨hm, hst, hra, getNextPendingJob_min h⟩

/-- Witness for C2 (amended): the amended statement instantiated on the
concrete one-row store. -/
theorem C2_witness :
    selJob ∈ selStore.jobs ∧ selJob.status = SyncJobStatus.PENDING ∧ selJob.retryAt ≤ 0 ∧
    (∀ k ∈ selStore.jobs, k.status = SyncJobStatus.PENDING → k.retryAt ≤ 0 → jobLe selJob k) :=
  C2_amended 0 selStore selJob (by decide)

/-- Removed half of a move as watchman reports it: exists = false. -/
def removedChange : FileChange :=
  { name := "old.txt"
    size := 0
    mtimeMs := 0
    existsB := false
    type := FileType.f
    watchRoot := "/w"
    clock := none }

/-- Added half of a move: a fresh existing file at the new path. -/
def addedChange : FileChange :=
  { name := "new.txt"
    size := 10
    mtimeMs := 0
    existsB := true
    type := FileType.f
    watchRoot := "/w"
    clock := none }

/-- C3: the claim that a (removed, added) pair with matching inode in one
batch is emitted as a single MOVE job is false on the code: the normalizer
maps each record on its own (the record does not even carry an inode), so the
pair becomes a DELETE job for the old path plus an UPDATE job for the new
path, and the event type enum has no MOVE member at all. -/
theorem C3_counterexample :
    ((processChangesStore ("") false 0 [removedChange, addedChange] emptyStore).jobs.map
      (fun j => (j.eventType, j.localPath))) =
      [(SyncEventType.DELETE, "/w/old.txt"), (SyncEventType.UPDATE, "/w/new.txt")] ∧
    (∀ e : SyncEventType,
      e = SyncEventType.CREATE ∨ e = SyncEventType.UPDATE ∨ e = SyncEventType.DELETE) := by
  decide

/-- C3 (amended): the normalizer derives every job independently per record —
a batch holding a removed record and an added file record is enqueued as a
DELETE for the old path followed by an UPDATE for the new path; no pairing by
inode exists and SyncEventType has no MOVE member. -/
theorem C3_amended (remoteRoot : String) (removed added : FileChange)
    (hrem : removed.existsB = false) (hadd : added.existsB = true)
    (hfile : added.type = FileType.f) :
    processChangesEnqueues remoteRoot [removed, added] =
      [SyncAction.enqueueA SyncEventType.DELETE (localPathOf removed)
        (remotePathOf remoteRoot removed),
       SyncAction.enqueueA SyncEventType.UPDATE (localPathOf added)
        (remotePathOf remoteRoot added)] := by
  simp [processChangesEnqueues, deriveEventType, hrem, hadd, hfile]

/-- Witness for C3 (amended): the amended statement on the concrete pair. -/
theorem C3_witness :
    processChangesEnqueues ("") [removedChange, addedChange] =
      [SyncAction.enqueueA SyncEventType.DELETE (localPathOf removedChange)
        (remotePathOf ("") removedChange),
       SyncAction.enqueueA SyncEventType.UPDATE (localPathOf addedChange)
        (remotePathOf ("") addedChange)] :=
  C3_amended ("") removedChange addedChange rfl rfl rfl

/-- Watchman response of the clock-ordering example: a fresh clock and one
changed file. -/
def c5Resp : WatchmanQueryResponse :=
  { clock := "c:1:2:3"
    files := [{ name := "a.txt", size := 10, mtimeMs := 0, existsB := true, type := FileType.f }] }

/-- C5: the claim that the batch clock is persisted only after all events of
the batch have been enqueued is false on the code: in the one-shot flow the
clock is saved right after the query response, before any enqueue, as this
concrete trace shows (saveClock at position 2, the enqueue after it). -/
theorem C5_counterexample :
    runOneShotSyncTrace ("") ("/w") c5Resp =
      [SyncAction.watchProject ("/w"), SyncAction.queryW ("/w"),
       SyncAction.saveClock ("/w") ("c:1:2:3"),
       SyncAction.enqueueA SyncEventType.UPDATE ("/w/a.txt") ("w/a.txt")] := by
  decide

/-- C5 (amended): in the one-shot flow the clock write comes first: whenever
the response clock is non-empty, the trace starts with watch registration,
query and the clock save, and everything after that point consists only of
enqueue actions — so the stored clock is the batch clock, at or ahead of the
clock of every event enqueued from the batch, and a crash between the clock
save and the enqueues loses those events instead of replaying them. -/
theorem C5_amended (remoteRoot dir : String) (resp : WatchmanQueryResponse)
    (hc : resp.clock ≠ "") :
    ∃ rest, runOneShotSyncTrace remoteRoot dir resp =
      [SyncAction.watchProject dir, SyncAction.queryW dir,
       SyncAction.saveClock dir resp.clock] ++ rest ∧
      ∀ a ∈ rest, ∃ e lp rp, a = SyncAction.enqueueA e lp rp := by
  simp only [runOneShotSyncTrace, if_pos hc]
  by_cases hb : queueChanges dir resp.files [] = []
  · refine ⟨[], ?_, ?_⟩
    · rw [if_pos hb]
      simp
    · intro a ha
      simp at ha
  · refine ⟨processChangesEnqueues remoteRoot (queueChanges dir resp.files []), ?_, ?_⟩
    · rw [if_neg hb]
      simp
    · intro a ha
      unfold processChangesEnqueues at ha
      rw [List.mem_map] at ha
      obtain ⟨c, _, hc2⟩ := ha
      exact ⟨_, _, _, hc2.symm⟩

/-- Witness for C5 (amended): the amended statement on the concrete response. -/
theorem C5_witness :
    ∃ rest, runOneShotSyncTrace ("") ("/w") c5Resp =
      [SyncAction.watchProject ("/w"), SyncAction.queryW ("/w"),
       SyncAction.saveClock ("/w") c5Resp.clock] ++ rest ∧
      ∀ a ∈ rest, ∃ e lp rp, a = SyncAction.enqueueA e lp rp :=
  C5_amended ("") ("/w") c5Resp (by decide)

theorem one_le_two_pow (n : Nat) : (1 : ℚ) ≤ 2 ^ n := by
  induction n with
  | zero => norm_num
  | succ k ih => rw [pow_succ]; nlinarith

theorem baseDelay_lower (n : Nat) : BASE_RETRY_DELAY_MS ≤ baseDelay n := by
  unfold baseDelay BASE_RETRY_DELAY_MS MAX_RETRY_DELAY_MS
  apply le_min
  · nlinarith [one_le_two_pow n]
  · norm_num

theorem baseDelay_upper (n : Nat) : baseDelay n ≤ MAX_RETRY_DELAY_MS := min_le_right _ _

theorem baseDelay_pos (n : Nat) : 0 < baseDelay n :=
  lt_of_lt_of_le (by norm_num [BASE_RETRY_DELAY_MS]) (baseDelay_lower n)

theorem retryDelay_lower (n : Nat) {r : ℚ} (hr : 0 ≤ r) : baseDelay n ≤ retryDelay n r := by
  unfold retryDelay
  nlinarith [baseDelay_pos n]

theorem retryDelay_upper (n : Nat) {r : ℚ} (hr : r ≤ 1) : retryDelay n r ≤ (3 / 2) * baseDelay n := by
  unfold retryDelay
  nlinarith [baseDelay_pos n]

theorem retryDelay_pos (n : Nat) {r : ℚ} (hr : 0 ≤ r) : 0 < retryDelay n r :=
  lt_of_lt_of_le (baseDelay_pos n) (retryDelay_lower n hr)

theorem eligible_of_update_eq (jobId : Nat) (upd : SyncJob → SyncJob) (now : ℚ)
    (hupd : ∀ k, k.id = jobId → isEligible now (upd k) = false) (a : SyncJob) :
    isEligible now (if a.id = jobId then upd a else a)
      = (decide (¬ a.id = jobId) && isEligible now a) := by
  by_cases ha : a.id = jobId
  · simp [ha, hupd a ha]
  · simp [ha]

theorem countP_and_lt {p q : SyncJob → Bool} {l : List SyncJob} {x : SyncJob}
    (hx : x ∈ l) (hp : p x = true) (hq : q x = false) :
    l.countP (fun a => q a && p a) < l.countP p := by
  induction l with
  | nil => simp at hx
  | cons a t ih =>
    rw [List.countP_cons, List.countP_cons]
    rcases List.mem_cons.mp hx with rfl | hx2
    · have hle : t.countP (fun a => q a && p a) ≤ t.countP p :=
        List.countP_mono_left (fun a _ h => by
          simp only [Bool.and_eq_true] at h
          exact h.2)
      simp only [hp, hq, Bool.false_and]
      simpa using Nat.lt_succ_of_le hle
    · have h1 : (if (q a && p a) = true then 1 else 0) ≤ (if p a = true then 1 else 0) := by
        cases hqa : q a <;> cases hpa : p a <;> simp
      exact Nat.add_lt_add_of_lt_of_le (ih hx2) h1

theorem eligibleCount_update_lt (now : ℚ) (s : JobStore) (jobId : Nat)
    (upd : SyncJob → SyncJob) (job : SyncJob) (hmem : job ∈ s.jobs)
    (helig : isEligible now job = true) (hid : job.id = jobId)
    (hupd : ∀ k, k.id = jobId → isEligible now (upd k) = false) :
    ((s.jobs.map (fun k => if k.id = jobId then upd k else k)).filter (isEligible now)).length
      < (s.jobs.filter (isEligible now)).length := by
  rw [← List.countP_eq_length_filter, ← List.countP_eq_length_filter, List.countP_map]
  have hcongr : s.jobs.countP ((isEligible now) ∘ (fun k => if k.id = jobId then upd k else k))
      = s.jobs.countP (fun a => decide (¬ a.id = jobId) && isEligible now a) := by
    apply List.countP_congr
    intro a _
    rw [Function.comp_apply, eligible_of_update_eq jobId upd now hupd a]
  rw [hcongr]
  exact countP_and_lt hmem helig (by simp [hid])

theorem processNextJob_none {exec : SyncJob → Except String Unit} {rand : ℚ} {dryRun : Bool}
    {now : ℚ} {s : JobStore} (hj : getNextPendingJob now s = none) :
    processNextJob exec rand dryRun now s = (false, s) := by
  unfold processNextJob
  rw [hj]

theorem processNextJob_ok {exec : SyncJob → Except String Unit} {rand : ℚ} {dryRun : Bool}
    {now : ℚ} {s : JobStore} {job : SyncJob} {u : Unit}
    (hj : getNextPendingJob now s = some job) (hex : exec job = Except.ok u) :
    processNextJob exec rand dryRun now s = (true, markJobSynced job.id dryRun s) := by
  unfold processNextJob
  rw [hj]
  simp only []
  rw [hex]

theorem processNextJob_fail_blocked {exec : SyncJob → Except String Unit} {rand : ℚ}
    {dryRun : Bool} {now : ℚ} {s : JobStore} {job : SyncJob} {msg : String}
    (hj : getNextPendingJob now s = some job) (hex : exec job = Except.error msg)
    (hn : MAX_RETRIES ≤ job.nRetries) :
    processNextJob exec rand dryRun now s = (true, markJobBlocked job.id msg dryRun s) := by
  unfold processNextJob
  rw [hj]
  simp only []
  rw [hex]
  simp only [if_pos hn]

theorem processNextJob_fail_retry {exec : SyncJob → Except String Unit} {rand : ℚ}
    {dryRun : Bool} {now : ℚ} {s : JobStore} {job : SyncJob} {msg : String}
    (hj : getNextPendingJob now s = some job) (hex : exec job = Except.error msg)
    (hn : job.nRetries < MAX_RETRIES) :
    processNextJob exec rand dryRun now s
      = (true, scheduleRetry job.id job.nRetries msg dryRun now rand s) := by
  unfold processNextJob
  rw [hj]
  simp only []
  rw [hex]
  simp only [if_neg (not_le.mpr hn)]

theorem processNextJob_fst_false {exec : SyncJob → Except String Unit} {rand : ℚ}
    {dryRun : Bool} {now : ℚ} {s : JobStore}
    (h : (processNextJob exec rand dryRun now s).1 = false) :
    getNextPendingJob now s = none := by
  cases hj : getNextPendingJob now s with
  | none => rfl
  | some job =>
    exfalso
    cases hex : exec job with
    | ok u => rw [processNextJob_ok hj hex] at h; simp at h
    | error msg =>
      by_cases hn : MAX_RETRIES ≤ job.nRetries
      · rw [processNextJob_fail_blocked hj hex hn] at h; simp at h
      · rw [processNextJob_fail_retry hj hex (not_le.mp hn)] at h; simp at h

theorem processNextJob_fst_true {exec : SyncJob → Except String Unit} {rand : ℚ}
    {dryRun : Bool} {now : ℚ} {s : JobStore} {job : SyncJob}
    (hj : getNextPendingJob now s = some job) :
    (processNextJob exec rand dryRun now s).1 = true := by
  cases hex : exec job with
  | ok u => rw [processNextJob_ok hj hex]
  | error msg =>
    by_cases hn : MAX_RETRIES ≤ job.nRetries
    · rw [processNextJob_fail_blocked hj hex hn]
    · rw [processNextJob_fail_retry hj hex (not_le.mp hn)]

theorem eligibleCount_zero_of_none {now : ℚ} {s : JobStore}
    (hj : getNextPendingJob now s = none) : eligibleCount now s = 0 := by
  unfold getNextPendingJob at hj
  unfold eligibleCount
  rw [selectMin_eq_none.mp hj]
  rfl

theorem processNextJob_decreases {exec : SyncJob → Except String Unit} {rand : ℚ}
    {now : ℚ} {s : JobStore} (hr : 0 ≤ rand)
    (h : (processNextJob exec rand false now s).1 = true) :
    eligibleCount now (processNextJob exec rand false now s).2 < eligibleCount now s := by
  cases hj : getNextPendingJob now s with
  | none => rw [processNextJob_none hj] at h; simp at h
  | some job =>
    obtain ⟨hmem, hst, hra⟩ := getNextPendingJob_mem hj
    have helig : isEligible now job = true := by simp [isEligible, hst, hra]
    cases hex : exec job with
    | ok u =>
      rw [processNextJob_ok hj hex]
      simp only [markJobSynced, Bool.false_eq_true, if_false, eligibleCount]
      apply eligibleCount_update_lt now s job.id _ job hmem helig rfl
      intro k _
      simp [isEligible]
    | error msg =>
      by_cases hn : MAX_RETRIES ≤ job.nRetries
      · rw [processNextJob_fail_blocked hj hex hn]
        simp only [markJobBlocked, Bool.false_eq_true, if_false, eligibleCount]
        apply eligibleCount_update_lt now s job.id _ job hmem helig rfl
        intro k _
        simp [isEligible]
      · rw [processNextJob_fail_retry hj hex (not_le.mp hn)]
        simp only [scheduleRetry, Bool.false_eq_true, if_false, eligibleCount]
        apply eligibleCount_update_lt now s job.id _ job hmem helig rfl
        intro k _
        have hd := retryDelay_pos job.nRetries hr
        simp only [isEligible, decide_eq_false_iff_not]
        rintro ⟨-, hle⟩
        linarith

/-- C4 (amended): when processAllPendingJobs runs to its exit condition (with
dryRun = false, nonnegative jitter draws, and fuel at least the number of
eligible rows), the resulting store has zero PENDING rows whose retryAt is at
or before now. Rows that failed and were scheduled for retry remain PENDING
with a future retryAt, and no PROCESSING status exists, so this eligibility
form is what holds in place of pending + processing = 0. -/
theorem C4_amended (exec : SyncJob → Except String Unit) (rand : Nat → ℚ)
    (hr : ∀ k, 0 ≤ rand k) (now : ℚ) :
    ∀ fuel count s, eligibleCount now s ≤ fuel →
      eligibleCount now (processAllPendingJobs exec rand false now fuel count s).2 = 0 := by
  intro fuel
  induction fuel with
  | zero =>
    intro count s hs
    simp only [processAllPendingJobs]
    exact Nat.le_zero.mp hs
  | succ n ih =>
    intro count s hs
    simp only [processAllPendingJobs]
    cases hpn : processNextJob exec (rand count) false now s with
    | mk b s2 =>
      cases b with
      | false =>
        have hfst : (processNextJob exec (rand count) false now s).1 = false := by rw [hpn]
        have hnone := processNextJob_fst_false hfst
        have heq := @processNextJob_none exec (rand count) false now s hnone
        rw [hpn] at heq
        have hs2 : s2 = s := congrArg Prod.snd heq
        simp only
        rw [hs2]
        exact eligibleCount_zero_of_none hnone
      | true =>
        have hfst : (processNextJob exec (rand count) false now s).1 = true := by rw [hpn]
        have hdec := processNextJob_decreases (hr count) hfst
        rw [hpn] at hdec
        simp only
        exact ih (count + 1) s2 (Nat.le_of_lt_succ (lt_of_lt_of_le hdec hs))

/-- A remote dispatch that always fails with a transient network error. -/
def failExec : SyncJob → Except String Unit := fun _ => Except.error "network error"

/-- An eligible PENDING upload job used by the retry examples. -/
def c4Job : SyncJob :=
  { id := 1
    eventType := SyncEventType.UPDATE
    localPath := "/w/big.bin"
    remotePath := "w/big.bin"
    status := SyncJobStatus.PENDING
    retryAt := 0
    nRetries := 0
    lastError := none }

/-- One-row store around c4Job. -/
def c4Store : JobStore := { jobs := [c4Job], nextId := 2 }

/-- C4: the claim that after processAllPendingJobs returns the store holds
zero PENDING rows even when jobs failed and were scheduled for retry is false
on the code: a failing job is rescheduled with a future retryAt but stays
PENDING (scheduleRetry never changes status and no PROCESSING status exists),
so the loop exits with one attempt counted, no eligible row, and still one
PENDING row. -/
theorem C4_counterexample :
    (processAllPendingJobs failExec (fun _ => 0) false 0 2 0 c4Store).1 = 1 ∧
    eligibleCount 0 (processAllPendingJobs failExec (fun _ => 0) false 0 2 0 c4Store).2 = 0 ∧
    pendingCount (processAllPendingJobs failExec (fun _ => 0) false 0 2 0 c4Store).2 = 1 := by
  have hdpos : 0 < retryDelay 0 0 := retryDelay_pos 0 le_rfl
  have hsel : getNextPendingJob 0 c4Store = some c4Job := by
    simp [getNextPendingJob, c4Store, selectMin, isEligible, c4Job]
  have hstep1 : processNextJob failExec 0 false 0 c4Store
      = (true, scheduleRetry 1 0 ("network error") false 0 0 c4Store) := by
    have hex : failExec c4Job = Except.error "network error" := rfl
    have hn : c4Job.nRetries < MAX_RETRIES := by simp [c4Job, MAX_RETRIES]
    rw [processNextJob_fail_retry hsel hex hn]
    rfl
  have hs1jobs : (scheduleRetry 1 0 ("network error") false 0 0 c4Store).jobs
      = [{ id := 1
           eventType := SyncEventType.UPDATE
           localPath := "/w/big.bin"
           remotePath := "w/big.bin"
           status := SyncJobStatus.PENDING
           retryAt := retryDelay 0 0
           nRetries := 1
           lastError := some "network error" }] := by
    simp [scheduleRetry, c4Store, c4Job]
  have hsel2 : getNextPendingJob 0 (scheduleRetry 1 0 ("network error") false 0 0 c4Store)
      = none := by
    simp [getNextPendingJob, hs1jobs, isEligible, selectMin, not_le.mpr hdpos]
  have hstep2 : processNextJob failExec 0 false 0
      (scheduleRetry 1 0 ("network error") false 0 0 c4Store)
      = (false, scheduleRetry 1 0 ("network error") false 0 0 c4Store) :=
    processNextJob_none hsel2
  have hloop : processAllPendingJobs failExec (fun _ => 0) false 0 2 0 c4Store
      = (1, scheduleRetry 1 0 ("network error") false 0 0 c4Store) := by
    show processAllPendingJobs failExec (fun _ => 0) false 0 (1 + 1) 0 c4Store = _
    rw [processAllPendingJobs, hstep1]
    show processAllPendingJobs failExec (fun _ => 0) false 0 (0 + 1) 1 _ = _
    rw [processAllPendingJobs, hstep2]
  rw [hloop]
  refine ⟨rfl, ?_, ?_⟩
  · exact eligibleCount_zero_of_none hsel2
  · simp [pendingCount, hs1jobs]

/-- Witness for C4 (amended): the drained-eligibility statement on the
concrete failing one-row store. -/
theorem C4_witness :
    eligibleCount 0 (processAllPendingJobs failExec (fun _ => 0) false 0 2 0 c4Store).2 = 0 :=
  C4_amended failExec (fun _ => 0) (fun _ => le_refl 0) 0 2 0 c4Store
    (by norm_num [eligibleCount, c4Store, isEligible, c4Job])
/-- C6: the claim that the total retry delay lies in the interval
[BASE·2^k, 1.5·BASE·2^k] clipped to [BASE, MAX] is false on the code: the
jitter is added after the base delay is clipped at MAX, so for k = 9 and the
mid-range draw 1/2 the delay is 375000 ms, above MAX = 300000 ms, outside
every reading of the clipped interval. -/
theorem C6_counterexample :
    retryDelay 9 (1 / 2) = 375000 ∧ ¬ retryDelay 9 (1 / 2) ≤ 300000 := by
  constructor
  · norm_num [retryDelay, baseDelay, BASE_RETRY_DELAY_MS, MAX_RETRY_DELAY_MS, min_def]
  · norm_num [retryDelay, baseDelay, BASE_RETRY_DELAY_MS, MAX_RETRY_DELAY_MS, min_def]

/-- C6 (amended): for every retry count k and jitter draw r in [0, 1], the
delay equals base + r·base·0.5 with base = min(1000·2^k, 300000), hence lies
in [base, 1.5·base] with base itself in [BASE, MAX]; only the base is clipped
at MAX, so the jittered total may exceed MAX by up to half. scheduleRetry
stores retry_at = now + delay and n_retries = k + 1 on the selected row. -/
theorem C6_amended (k : Nat) (r : ℚ) (h0 : 0 ≤ r) (h1 : r ≤ 1) :
    retryDelay k r = baseDelay k + r * baseDelay k * (1 / 2) ∧
    baseDelay k = min (BASE_RETRY_DELAY_MS * 2 ^ k) MAX_RETRY_DELAY_MS ∧
    BASE_RETRY_DELAY_MS ≤ baseDelay k ∧ baseDelay k ≤ MAX_RETRY_DELAY_MS ∧
    baseDelay k ≤ retryDelay k r ∧ retryDelay k r ≤ (3 / 2) * baseDelay k ∧
    (∀ (jobId : Nat) (error : String) (now : ℚ) (s : JobStore),
      (scheduleRetry jobId k error false now r s).jobs = s.jobs.map (fun j =>
        if j.id = jobId then
          { j with
            nRetries := k + 1
            retryAt := now + retryDelay k r
            lastError := some error }
        else j)) := by
  refine ⟨rfl, rfl, baseDelay_lower k, baseDelay_upper k, retryDelay_lower k h0,
    retryDelay_upper k h1, ?_⟩
  intro jobId error now s
  simp [scheduleRetry]

/-- Witness for C6 (amended): the delay bounds instantiated at k = 3 and a
mid-range jitter draw. -/
theorem C6_witness :
    baseDelay 3 ≤ retryDelay 3 (1 / 2) ∧ retryDelay 3 (1 / 2) ≤ (3 / 2) * baseDelay 3 :=
  ⟨(C6_amended 3 (1 / 2) (by norm_num) (by norm_num)).2.2.2.2.1,
   (C6_amended 3 (1 / 2) (by norm_num) (by norm_num)).2.2.2.2.2.1⟩

theorem enqueue_nRetries {params : EnqueueParams} {dryRun : Bool} {now : ℚ} {s : JobStore}
    {j : SyncJob} (hj : j ∈ (enqueueJob params dryRun now s).jobs) :
    j ∈ s.jobs ∨ j.nRetries = 0 := by
  cases dryRun with
  | true => exact Or.inl (by simpa [enqueueJob] using hj)
  | false =>
    simp only [enqueueJob, Bool.false_eq_true, if_false, List.mem_append,
      List.mem_singleton] at hj
    rcases hj with hj | hj
    · exact Or.inl hj
    · subst hj; exact Or.inr rfl

theorem processNextJob_nRetries {exec : SyncJob → Except String Unit} {rand : ℚ}
    {dryRun : Bool} {now : ℚ} {s : JobStore} {j : SyncJob}
    (hinv : ∀ k ∈ s.jobs, k.nRetries ≤ MAX_RETRIES)
    (hj : j ∈ (processNextJob exec rand dryRun now s).2.jobs) : j.nRetries ≤ MAX_RETRIES := by
  cases hsel : getNextPendingJob now s with
  | none =>
    rw [processNextJob_none hsel] at hj
    exact hinv j hj
  | some job =>
    cases hex : exec job with
    | ok u =>
      rw [processNextJob_ok hsel hex] at hj
      cases dryRun with
      | true => exact hinv j (by simpa [markJobSynced] using hj)
      | false =>
        simp only [markJobSynced, Bool.false_eq_true, if_false, List.mem_map] at hj
        obtain ⟨k, hk, hkeq⟩ := hj
        subst hkeq
        by_cases hid : k.id = job.id
        · rw [if_pos hid]; exact hinv k hk
        · rw [if_neg hid]; exact hinv k hk
    | error msg =>
      by_cases hn : MAX_RETRIES ≤ job.nRetries
      · rw [processNextJob_fail_blocked hsel hex hn] at hj
        cases dryRun with
        | true => exact hinv j (by simpa [markJobBlocked] using hj)
        | false =>
          simp only [markJobBlocked, Bool.false_eq_true, if_false, List.mem_map] at hj
          obtain ⟨k, hk, hkeq⟩ := hj
          subst hkeq
          by_cases hid : k.id = job.id
          · rw [if_pos hid]; exact hinv k hk
          · rw [if_neg hid]; exact hinv k hk
      · rw [processNextJob_fail_retry hsel hex (not_le.mp hn)] at hj
        cases dryRun with
        | true => exact hinv j (by simpa [scheduleRetry] using hj)
        | false =>
          simp only [scheduleRetry, Bool.false_eq_true, if_false, List.mem_map] at hj
          obtain ⟨k, hk, hkeq⟩ := hj
          subst hkeq
          by_cases hid : k.id = job.id
          · rw [if_pos hid]
            exact Nat.succ_le_of_lt (not_le.mp hn)
          · rw [if_neg hid]; exact hinv k hk

theorem reachable_nRetries_le {s : JobStore} (hs : Reachable s) :
    ∀ j ∈ s.jobs, j.nRetries ≤ MAX_RETRIES := by
  induction hs with
  | empty => intro j hj; simp [emptyStore] at hj
  | enqueue params dryRun now s2 _ ih =>
    intro j hj
    rcases enqueue_nRetries hj with hj2 | hj2
    · exact ih j hj2
    · rw [hj2]; exact Nat.zero_le _
  | process exec rand dryRun now s2 _ ih =>
    intro j hj
    exact processNextJob_nRetries ih hj

/-- C7: the executor routes failures by the retry bound — a failed job with
nRetries at least MAX_RETRIES (10) is marked BLOCKED with the error stored,
otherwise a retry is scheduled with nRetries + 1; consequently every row of
every store reachable by enqueue and executor steps has nRetries at most 10;
any executor visit to a row that already reached MAX_RETRIES leaves every row
of its id SYNCED or BLOCKED; and only PENDING rows are ever selected, so
SYNCED and BLOCKED rows are never attempted again. -/
theorem C7_theorem :
    (∀ s, Reachable s → ∀ j ∈ s.jobs, j.nRetries ≤ MAX_RETRIES) ∧
    (∀ (exec : SyncJob → Except String Unit) (rand now : ℚ) (s : JobStore) (job : SyncJob)
      (msg : String), getNextPendingJob now s = some job → exec job = Except.error msg →
      ((MAX_RETRIES ≤ job.nRetries →
        processNextJob exec rand false now s = (true, markJobBlocked job.id msg false s)) ∧
       (job.nRetries < MAX_RETRIES →
        processNextJob exec rand false now s
          = (true, scheduleRetry job.id job.nRetries msg false now rand s)))) ∧
    (∀ (exec : SyncJob → Except String Unit) (rand now : ℚ) (s : JobStore) (job : SyncJob),
      getNextPendingJob now s = some job → job.nRetries = MAX_RETRIES →
      ∀ j ∈ (processNextJob exec rand false now s).2.jobs, j.id = job.id →
        j.status = SyncJobStatus.SYNCED ∨ j.status = SyncJobStatus.BLOCKED) ∧
    (∀ (now : ℚ) (s : JobStore) (job : SyncJob),
      getNextPendingJob now s = some job → job.status = SyncJobStatus.PENDING) := by
  refine ⟨fun s hs => reachable_nRetries_le hs, ?_, ?_, ?_⟩
  · intro exec rand now s job msg hsel hex
    exact ⟨fun hn => processNextJob_fail_blocked hsel hex hn,
      fun hn => processNextJob_fail_retry hsel hex hn⟩
  · intro exec rand now s job hsel hmax j hj hid
    cases hex : exec job with
    | ok u =>
      rw [processNextJob_ok hsel hex] at hj
      simp only [markJobSynced, Bool.false_eq_true, if_false, List.mem_map] at hj
      obtain ⟨k, _, hkeq⟩ := hj
      subst hkeq
      by_cases hkid : k.id = job.id
      · rw [if_pos hkid]
        exact Or.inl rfl
      · rw [if_neg hkid] at hid ⊢
        exact absurd hid hkid
    | error msg =>
      have hn : MAX_RETRIES ≤ job.nRetries := le_of_eq hmax.symm
      rw [processNextJob_fail_blocked hsel hex hn] at hj
      simp only [markJobBlocked, Bool.false_eq_true, if_false, List.mem_map] at hj
      obtain ⟨k, _, hkeq⟩ := hj
      subst hkeq
      by_cases hkid : k.id = job.id
      · rw [if_pos hkid]
        exact Or.inr rfl
      · rw [if_neg hkid] at hid ⊢
        exact absurd hid hkid
  · intro now s job hsel
    exact (getNextPendingJob_mem hsel).2.1

/-- A PENDING job that has already used all its retries. -/
def c7Job : SyncJob :=
  { id := 1
    eventType := SyncEventType.UPDATE
    localPath := "/w/a.txt"
    remotePath := "w/a.txt"
    status := SyncJobStatus.PENDING
    retryAt := 0
    nRetries := 10
    lastError := none }

/-- One-row store around c7Job. -/
def c7Store : JobStore := { jobs := [c7Job], nextId := 2 }

/-- Witness for C7: the terminal-visit clause applied to the concrete
exhausted job under a failing dispatch; its row ends SYNCED or BLOCKED. -/
theorem C7_witness :
    ({ id := 1
       eventType := SyncEventType.UPDATE
       localPath := "/w/a.txt"
       remotePath := "w/a.txt"
       status := SyncJobStatus.BLOCKED
       retryAt := 0
       nRetries := 10
       lastError := some "network error" } : SyncJob).status = SyncJobStatus.SYNCED ∨
    ({ id := 1
       eventType := SyncEventType.UPDATE
       localPath := "/w/a.txt"
       remotePath := "w/a.txt"
       status := SyncJobStatus.BLOCKED
       retryAt := 0
       nRetries := 10
       lastError := some "network error" } : SyncJob).status = SyncJobStatus.BLOCKED :=
  C7_theorem.2.2.1 failExec 0 0 c7Store c7Job (by decide) rfl _ (by decide) (by decide)

/-- The remote target of a path is absent, exactly as deleteNode probes it:
either the parent-path walk fails (a component missing or not a folder), or
the parent folder resolves but has no child of the target name. -/
def targetAbsent (client : ProtonDriveClient) (remotePath : String) : Prop :=
  (if (parsePath remotePath).parentParts.length > 0 then
     traverseRemotePath client ((client.rootResult.uid).getD "") (parsePath remotePath).parentParts
   else some ((client.rootResult.uid).getD "")) = none ∨
  ∃ targetUid,
    (if (parsePath remotePath).parentParts.length > 0 then
       traverseRemotePath client ((client.rootResult.uid).getD "")
         (parsePath remotePath).parentParts
     else some ((client.rootResult.uid).getD "")) = some targetUid ∧
    findNodeByName (client.childrenOf targetUid) (parsePath remotePath).name = none

/-- C8: a DELETE job whose remote path has no corresponding node (the target
or a folder on its parent path is absent) succeeds with existed = false, the
only traced client call is the root lookup — no trash or delete call is
issued — and the executor marks the job SYNCED on this first attempt. -/
theorem C8_theorem (client : ProtonDriveClient) (remotePath : String)
    (hroot : client.rootResult.ok = true) (habs : targetAbsent client remotePath) :
    deleteNode client remotePath false
      = ({ success := true, existed := false, nodeUid := none, nodeType := none, error := none },
         [ClientCall.getRootC]) ∧
    (∀ (other : SyncJob → Except String Unit) (rand now : ℚ) (s : JobStore) (job : SyncJob),
      getNextPendingJob now s = some job → job.eventType = SyncEventType.DELETE →
      job.remotePath = remotePath →
      processNextJob (dispatchJob client other) rand false now s
        = (true, markJobSynced job.id false s)) := by
  have hne : ¬ client.rootResult.ok = false := by simp [hroot]
  have hdel : deleteNode client remotePath false
      = ({ success := true, existed := false, nodeUid := none, nodeType := none, error := none },
         [ClientCall.getRootC]) := by
    simp only [deleteNode]
    rw [if_neg hne]
    rcases habs with habs | ⟨uid, huid, hfind⟩
    · rw [habs]
    · rw [huid]
      simp only []
      rw [hfind]
  refine ⟨hdel, ?_⟩
  intro other rand now s job hsel hevt hrp
  have hexec : dispatchJob client other job = Except.ok () := by
    unfold dispatchJob
    rw [hevt]
    simp only []
    rw [hrp, hdel]
    simp
  exact processNextJob_ok hsel hexec

/-- A drive client whose remote tree is empty below the root. -/
def c8Client : ProtonDriveClient :=
  { rootResult := { ok := true, uid := some "root", error := none }
    childrenOf := fun _ => []
    trashResult := fun _ => []
    deleteResult := fun _ => []
    createFolderResult := fun _ _ => { ok := false, uid := none, error := none }
    uploadNewResult := fun _ _ => Except.error "offline"
    uploadRevisionResult := fun _ => Except.error "offline" }

/-- A DELETE job for a path absent on the remote side. -/
def c8Job : SyncJob :=
  { id := 1
    eventType := SyncEventType.DELETE
    localPath := "/w/missing.txt"
    remotePath := "missing.txt"
    status := SyncJobStatus.PENDING
    retryAt := 0
    nRetries := 0
    lastError := none }

/-- One-row store around c8Job. -/
def c8Store : JobStore := { jobs := [c8Job], nextId := 2 }

/-- Witness for C8: the concrete absent-target DELETE returns success with
existed = false, calls only the root lookup, and is marked SYNCED at once. -/
theorem C8_witness :
    deleteNode c8Client ("missing.txt") false
      = ({ success := true, existed := false, nodeUid := none, nodeType := none, error := none },
         [ClientCall.getRootC]) ∧
    processNextJob (dispatchJob c8Client failExec) 0 false 0 c8Store
      = (true, markJobSynced c8Job.id false c8Store) :=
  have h := C8_theorem c8Client ("missing.txt") rfl (Or.inr ⟨"root", by decide, by decide⟩)
  ⟨h.1, h.2 failExec 0 0 c8Store c8Job (by decide) rfl rfl⟩

/-- C9: processNextJob returns false exactly when no PENDING row with
retryAt at or before now exists; whenever a row is selected it returns true
for every dispatch outcome, including failures; and one loop step of
processAllPendingJobs with a selected row adds exactly one to the running
count and continues on the updated store, so the returned count counts
attempts rather than successful syncs. -/
theorem C9_theorem (exec : SyncJob → Except String Unit) (rand : ℚ) (dryRun : Bool)
    (now : ℚ) (s : JobStore) :
    ((processNextJob exec rand dryRun now s).1 = false ↔
      ∀ j ∈ s.jobs, ¬(j.status = SyncJobStatus.PENDING ∧ j.retryAt ≤ now)) ∧
    (∀ job, getNextPendingJob now s = some job →
      (processNextJob exec rand dryRun now s).1 = true) ∧
    (∀ (rand2 : Nat → ℚ) (fuel count : Nat) (s2 : JobStore) (job : SyncJob),
      getNextPendingJob now s2 = some job →
      processAllPendingJobs exec rand2 dryRun now (fuel + 1) count s2
        = processAllPendingJobs exec rand2 dryRun now fuel (count + 1)
            (processNextJob exec (rand2 count) dryRun now s2).2) := by
  refine ⟨⟨?_, ?_⟩, ?_, ?_⟩
  · intro h
    exact getNextPendingJob_eq_none.mp (processNextJob_fst_false h)
  · intro h
    have hnone : getNextPendingJob now s = none := getNextPendingJob_eq_none.mpr h
    rw [processNextJob_none hnone]
  · intro job hsel
    exact processNextJob_fst_true hsel
  · intro rand2 fuel count s2 job hsel
    have htrue : (processNextJob exec (rand2 count) dryRun now s2).1 = true :=
      processNextJob_fst_true hsel
    rw [processAllPendingJobs]
    cases hpn : processNextJob exec (rand2 count) dryRun now s2 with
    | mk b st =>
      cases b with
      | false => rw [hpn] at htrue; simp at htrue
      | true => simp only

/-- Witness for C9: on the concrete one-row store with a failing dispatch,
a job is selected so the step returns true, and the loop step increments the
count on the rescheduled store. -/
theorem C9_witness :
    (processNextJob failExec 0 false 0 c4Store).1 = true ∧
    processAllPendingJobs failExec (fun _ => 0) false 0 1 0 c4Store
      = processAllPendingJobs failExec (fun _ => 0) false 0 0 1
          (processNextJob failExec 0 false 0 c4Store).2 :=
  have hsel : getNextPendingJob 0 c4Store = some c4Job := by decide
  ⟨(C9_theorem failExec 0 false 0 c4Store).2.1 c4Job hsel,
   (C9_theorem failExec 0 false 0 c4Store).2.2 (fun _ => 0) 0 0 c4Store c4Job hsel⟩

/-- C10: create with a local path that does not exist (statSync throws) and
has no trailing slash returns the Path-not-found failure with
isDirectory = false, making no drive-client call at all: no root lookup, no
folder creation, no uploader request. -/
theorem C10_theorem (fs : LocalFS) (client : ProtonDriveClient) (localPath : String)
    (hstat : fs.stat localPath = none) (hslash : endsWithS localPath ("/") = false) :
    create fs client localPath
      = (Except.ok
          { success := false
            nodeUid := none
            error := some ("Path not found: " ++ localPath ++
              ". For creating a new directory, add a trailing slash.")
            isDirectory := false },
         []) := by
  unfold create
  rw [hstat]
  simp only [hslash, Bool.false_eq_true, if_false]

/-- A local filesystem on which every stat fails. -/
def emptyFS : LocalFS := { stat := fun _ => none }

/-- Witness for C10: the concrete missing path without a trailing slash gets
the Path-not-found result and an empty client-call trace. -/
theorem C10_witness :
    create emptyFS c8Client ("/nope/file.txt")
      = (Except.ok
          { success := false
            nodeUid := none
            error := some ("Path not found: " ++ "/nope/file.txt" ++
              ". For creating a new directory, add a trailing slash.")
            isDirectory := false },
         []) :=
  C10_theorem emptyFS c8Client ("/nope/file.txt") rfl (by decide)

end ProtonDriveSync
